import Mathlib

/-!
Shallow embedding of the Masterblog HTTP post service
(`backend/backend_app.py`): an in-memory list of posts with five
handlers (list, create, delete, update, search).  Each handler is
modelled as a pure function from the current collection state (plus the
request's query/body parameters) to the new collection state and the
HTTP response.  Python's stable `list.sort` is modelled by
`List.mergeSort`, Python string truthiness by emptiness of an optional
string, and `request.args.get` / `data.get` by `Option.getD`.
-/

namespace Masterblog

/-- A blog post record: server-assigned id, title and content. -/
structure Post where
  id : Nat
  title : String
  content : String
  deriving DecidableEq

/-- The JSON body shapes the handlers return. -/
inductive Body where
  | posts (l : List Post)
  | post (p : Post)
  | message (s : String)
  | error (s : String)
  deriving DecidableEq

/-- An HTTP response: status code and JSON body. -/
structure Response where
  status : Nat
  body : Body
  deriving DecidableEq

/-- The three seed posts the collection holds at startup (`POSTS`). -/
def seedPosts : List Post :=
  [⟨1, "First post", "This is the first post."⟩,
   ⟨2, "Second post", "This is the second post."⟩,
   ⟨3, "Third post", "This is the third post."⟩]

/-- Python truthiness of an optional string value: `None` and the empty
string are falsy, everything else truthy. -/
def truthy : Option String → Bool
  | none => false
  | some s => !s.isEmpty

/-- Python `str.lower()`: lowercase every character. -/
def lowerStr (s : String) : String :=
  ⟨s.data.map Char.toLower⟩

/-- Lexicographic order on character lists by code point, as Python
compares strings. -/
def lexLe : List Char → List Char → Bool
  | [], _ => true
  | _ :: _, [] => false
  | a :: as, b :: bs => if a = b then lexLe as bs else decide (a < b)

/-- Python string comparison `s <= t`: lexicographic by code point. -/
def strLe (s t : String) : Bool :=
  lexLe s.data t.data

/-- Field access `post[sort_by]` for a validated sort field. -/
def getField (f : String) (p : Post) : String :=
  if f = "title" then p.title else if f = "content" then p.content else ""

/-- The sort key `post[sort_by].lower()`. -/
def sortKey (f : String) (p : Post) : String :=
  lowerStr (getField f p)

/-- Model of Python `POSTS.sort(key=lambda post: post[sort_by].lower(),
reverse=reverse)`: a stable sort by the lowercased field, with the
comparison flipped when `reverse` is set (Python's `reverse=True` keeps
equal elements in their original order, exactly as a stable sort under
the flipped comparison does). -/
def pySort (f : String) (reverse : Bool) (posts : List Post) : List Post :=
  if reverse then
    posts.mergeSort (fun a b => strLe (sortKey f b) (sortKey f a))
  else
    posts.mergeSort (fun a b => strLe (sortKey f a) (sortKey f b))

/-- Handler `GET /api/posts` (`get_posts`).  `sortBy` and `direction`
are the raw query parameters (`none` when absent).  Returns the new
collection state (the sort is in place) and the response. -/
def get_posts (sortBy direction : Option String) (posts : List Post) :
    List Post × Response :=
  let sb := sortBy.getD ""
  let dir := lowerStr (direction.getD "asc")
  if sb ≠ "" ∧ sb ≠ "title" ∧ sb ≠ "content" then
    (posts, ⟨400, .error "Invalid sort field. Must be 'title' or 'content'."⟩)
  else if dir ≠ "asc" ∧ dir ≠ "desc" then
    (posts, ⟨400, .error "Invalid direction. Must be 'asc' or 'desc'."⟩)
  else if sb ≠ "" then
    let l := pySort sb (dir = "desc") posts
    (l, ⟨200, .posts l⟩)
  else
    (posts, ⟨200, .posts posts⟩)

/-- The id assigned to a newly created post:
`max(post["id"] for post in POSTS) + 1 if POSTS else 1`. -/
def nextId (posts : List Post) : Nat :=
  match posts with
  | [] => 1
  | _ :: _ => (posts.map Post.id).foldr max 0 + 1

/-- Handler `POST /api/posts` (`create_post`).  `title` and `content`
are the optional string fields of the JSON body (`none` when the key
is absent). -/
def create_post (title content : Option String) (posts : List Post) :
    List Post × Response :=
  if !truthy title || !truthy content then
    (posts, ⟨400, .error "Both 'title' and 'content' are required"⟩)
  else
    let newPost : Post := ⟨nextId posts, title.getD "", content.getD ""⟩
    (posts ++ [newPost], ⟨201, .post newPost⟩)

/-- Handler `DELETE /api/posts/<int:id>` (`delete_post`): find the
first post with the given id and remove it (`POSTS.remove` deletes the
first element equal to the found post). -/
def delete_post (i : Nat) (posts : List Post) : List Post × Response :=
  match posts.find? (fun p => p.id == i) with
  | some p =>
      (posts.erase p,
       ⟨200, .message ("Post with id " ++ toString i ++ " has been deleted successfully.")⟩)
  | none => (posts, ⟨404, .error "Post not found"⟩)

/-- Replace the first post whose id matches, applying
`data.get("title", old)` / `data.get("content", old)` semantics;
`none` when no post matches. -/
def updateFirst (i : Nat) (t c : Option String) : List Post → Option (List Post × Post)
  | [] => none
  | p :: rest =>
    if p.id = i then
      let p' : Post := ⟨p.id, t.getD p.title, c.getD p.content⟩
      some (p' :: rest, p')
    else
      match updateFirst i t c rest with
      | none => none
      | some (rest', q) => some (p :: rest', q)

/-- Handler `PUT /api/posts/<int:id>` (`update_post`).  `t` and `c` are
the optional `title` / `content` fields of the JSON body. -/
def update_post (i : Nat) (t c : Option String) (posts : List Post) :
    List Post × Response :=
  match updateFirst i t c posts with
  | none => (posts, ⟨404, .error "Post not found"⟩)
  | some (posts', p') => (posts', ⟨200, .post p'⟩)

/-- Python `needle in haystack` on lists of characters. -/
def listContains (needle : List Char) : List Char → Bool
  | [] => needle.isEmpty
  | c :: rest => needle.isPrefixOf (c :: rest) || listContains needle rest

/-- Python substring containment `needle in haystack` on strings. -/
def strContains (haystack needle : String) : Bool :=
  listContains needle.toList haystack.toList

/-- The filter predicate of `search_posts`:
`(title_query in post["title"].lower() if title_query else True) and
(content_query in post["content"].lower() if content_query else True)`,
where `tq` and `cq` are the already-lowercased queries. -/
def searchPred (tq cq : String) (p : Post) : Bool :=
  (if tq ≠ "" then strContains (lowerStr p.title) tq else true) &&
  (if cq ≠ "" then strContains (lowerStr p.content) cq else true)

/-- Handler `GET /api/posts/search` (`search_posts`).  `titleQ` and
`contentQ` are the raw query parameters (`none` when absent, default
empty string). -/
def search_posts (titleQ contentQ : Option String) (posts : List Post) :
    List Post × Response :=
  let tq := lowerStr (titleQ.getD "")
  let cq := lowerStr (contentQ.getD "")
  (posts, ⟨200, .posts (posts.filter (searchPred tq cq))⟩)

/-- The list of ids of a collection state. -/
def ids (posts : List Post) : List Nat :=
  posts.map Post.id

/-! Helper lemmas about the lexicographic comparison. -/

theorem lexLe_refl : ∀ xs, lexLe xs xs = true
  | [] => rfl
  | a :: as => by simp [lexLe, lexLe_refl as]

theorem lexLe_trans : ∀ xs ys zs, lexLe xs ys = true → lexLe ys zs = true →
    lexLe xs zs = true
  | [], _, _, _, _ => rfl
  | a :: as, [], zs, h1, _ => by simp [lexLe] at h1
  | a :: as, b :: bs, [], _, h2 => by simp [lexLe] at h2
  | a :: as, b :: bs, c :: cs, h1, h2 => by
    simp only [lexLe] at h1 h2 ⊢
    by_cases hab : a = b
    · subst hab
      rw [if_pos rfl] at h1
      by_cases hbc : a = c
      · subst hbc
        rw [if_pos rfl] at h2 ⊢
        exact lexLe_trans as bs cs h1 h2
      · rw [if_neg hbc] at h2 ⊢
        exact h2
    · rw [if_neg hab, decide_eq_true_eq] at h1
      by_cases hbc : b = c
      · subst hbc
        rw [if_neg hab]
        simpa using h1
      · rw [if_neg hbc, decide_eq_true_eq] at h2
        have hac : a < c := lt_trans h1 h2
        rw [if_neg (ne_of_lt hac), decide_eq_true_eq]
        exact hac

theorem lexLe_total : ∀ xs ys, lexLe xs ys || lexLe ys xs
  | [], _ => by simp [lexLe]
  | _ :: _, [] => by simp [lexLe]
  | a :: as, b :: bs => by
    simp only [lexLe]
    by_cases hab : a = b
    · subst hab
      simp only [if_pos rfl]
      exact lexLe_total as bs
    · rcases lt_or_gt_of_ne hab with h | h
      · simp [if_neg hab, if_neg (Ne.symm hab), h]
      · simp [if_neg hab, if_neg (Ne.symm hab), h, le_of_lt]

theorem strLe_refl (s : String) : strLe s s = true :=
  lexLe_refl s.data

theorem strLe_trans {s t u : String} (h1 : strLe s t = true)
    (h2 : strLe t u = true) : strLe s u = true :=
  lexLe_trans _ _ _ h1 h2

theorem strLe_total (s t : String) : strLe s t || strLe t s :=
  lexLe_total s.data t.data

/-! Helper lemmas about `pySort`. -/

theorem pySort_perm (f : String) (r : Bool) (posts : List Post) :
    (pySort f r posts).Perm posts := by
  cases r <;> simp only [pySort, Bool.false_eq_true, if_false, if_true] <;>
    exact List.mergeSort_perm _ _

theorem pySort_sorted_asc (f : String) (posts : List Post) :
    (pySort f false posts).Pairwise
      (fun a b => strLe (sortKey f a) (sortKey f b) = true) := by
  have h : (posts.mergeSort (fun a b => strLe (sortKey f a) (sortKey f b))).Pairwise
      (fun a b => strLe (sortKey f a) (sortKey f b) = true) :=
    @List.sorted_mergeSort Post (fun a b => strLe (sortKey f a) (sortKey f b))
      (fun a b c h1 h2 => strLe_trans h1 h2)
      (fun a b => strLe_total _ _) posts
  simpa only [pySort, Bool.false_eq_true, if_false] using h

theorem pySort_sorted_desc (f : String) (posts : List Post) :
    (pySort f true posts).Pairwise
      (fun a b => strLe (sortKey f b) (sortKey f a) = true) := by
  have h : (posts.mergeSort (fun a b => strLe (sortKey f b) (sortKey f a))).Pairwise
      (fun a b => strLe (sortKey f b) (sortKey f a) = true) :=
    @List.sorted_mergeSort Post (fun a b => strLe (sortKey f b) (sortKey f a))
      (fun a b c h1 h2 => strLe_trans h2 h1)
      (fun a b => strLe_total _ _) posts
  simpa only [pySort, if_true] using h

/-! Helper lemmas about the maximum id and `nextId`. -/

theorem le_foldr_max : ∀ {l : List Nat} {a : Nat}, a ∈ l → a ≤ l.foldr max 0
  | b :: bs, a, h => by
    rcases List.mem_cons.mp h with h | h
    · subst h
      exact le_max_left _ _
    · exact le_trans (le_foldr_max h) (le_max_right _ _)

theorem foldr_max_mem : ∀ {l : List Nat}, l ≠ [] → l.foldr max 0 ∈ l
  | [b], _ => by simp
  | b :: c :: cs, _ => by
    show max b ((c :: cs).foldr max 0) ∈ b :: c :: cs
    rcases max_choice b ((c :: cs).foldr max 0) with h | h
    · rw [h]
      exact List.mem_cons_self _ _
    · rw [h]
      exact List.mem_cons_of_mem _ (foldr_max_mem (by simp))

theorem lt_nextId {posts : List Post} {p : Post} (h : p ∈ posts) :
    p.id < nextId posts := by
  match posts, h with
  | q :: rest, h =>
    have : p.id ≤ ((q :: rest).map Post.id).foldr max 0 :=
      le_foldr_max (List.mem_map_of_mem Post.id h)
    simpa [nextId] using Nat.lt_succ_of_le this

theorem nextId_eq_succ_mem {posts : List Post} (h : posts ≠ []) :
    ∃ q ∈ posts, nextId posts = q.id + 1 := by
  match posts, h with
  | q :: rest, _ =>
    have hmem : ((q :: rest).map Post.id).foldr max 0 ∈ (q :: rest).map Post.id :=
      foldr_max_mem (by simp)
    rcases List.mem_map.mp hmem with ⟨r, hr, hid⟩
    have hn : nextId (q :: rest) = ((q :: rest).map Post.id).foldr max 0 + 1 := rfl
    exact ⟨r, hr, by rw [hn, hid]⟩

/-! Helper lemmas about the individual handlers. -/

theorem get_posts_no_sort (d : Option String) (posts : List Post)
    (hd : lowerStr (d.getD "asc") = "asc" ∨ lowerStr (d.getD "asc") = "desc") :
    get_posts none d posts = (posts, ⟨200, Body.posts posts⟩) := by
  rcases hd with hd | hd <;> simp [get_posts, hd]

theorem get_posts_valid_sort (f : String) (d : Option String) (posts : List Post)
    (hf : f = "title" ∨ f = "content")
    (hd : lowerStr (d.getD "asc") = "asc" ∨ lowerStr (d.getD "asc") = "desc") :
    get_posts (some f) d posts =
      (pySort f (lowerStr (d.getD "asc") = "desc") posts,
       ⟨200, Body.posts (pySort f (lowerStr (d.getD "asc") = "desc") posts)⟩) := by
  rcases hf with hf | hf <;> subst hf <;> rcases hd with hd | hd <;>
    simp [get_posts, hd]

theorem create_post_valid_eq (t c : String) (ht : t ≠ "") (hc : c ≠ "")
    (posts : List Post) :
    create_post (some t) (some c) posts =
      (posts ++ [⟨nextId posts, t, c⟩], ⟨201, Body.post ⟨nextId posts, t, c⟩⟩) := by
  have ht' : t.isEmpty = false := by
    rw [← Bool.not_eq_true, String.isEmpty_iff]
    exact ht
  have hc' : c.isEmpty = false := by
    rw [← Bool.not_eq_true, String.isEmpty_iff]
    exact hc
  simp [create_post, truthy, ht', hc']

theorem updateFirst_eq_none (i : Nat) (t c : Option String) :
    ∀ posts : List Post, (∀ p ∈ posts, p.id ≠ i) →
      updateFirst i t c posts = none
  | [], _ => rfl
  | p :: rest, h => by
    have hp : p.id ≠ i := h p (List.mem_cons_self _ _)
    have ih := updateFirst_eq_none i t c rest
      (fun q hq => h q (List.mem_cons_of_mem _ hq))
    simp [updateFirst, if_neg hp, ih]

theorem updateFirst_append (i : Nat) (t c : Option String) (p : Post)
    (suf : List Post) (hp : p.id = i) :
    ∀ pre : List Post, (∀ q ∈ pre, q.id ≠ i) →
      updateFirst i t c (pre ++ p :: suf) =
        some (pre ++ ⟨p.id, t.getD p.title, c.getD p.content⟩ :: suf,
              ⟨p.id, t.getD p.title, c.getD p.content⟩)
  | [], _ => by simp [updateFirst, hp]
  | q :: pre, h => by
    have hq : q.id ≠ i := h q (List.mem_cons_self _ _)
    have ih := updateFirst_append i t c p suf hp pre
      (fun r hr => h r (List.mem_cons_of_mem _ hr))
    simp [updateFirst, if_neg hq, ih]

theorem updateFirst_ids {i : Nat} {t c : Option String} :
    ∀ {posts l' : List Post} {q : Post},
      updateFirst i t c posts = some (l', q) → ids l' = ids posts
  | [], _, _, h => by simp [updateFirst] at h
  | p :: rest, l', q, h => by
    by_cases hp : p.id = i
    · simp only [updateFirst, if_pos hp] at h
      cases h
      simp [ids]
    · simp only [updateFirst, if_neg hp] at h
      cases hrec : updateFirst i t c rest with
      | none =>
        rw [hrec] at h
        cases h
      | some pr =>
        rw [hrec] at h
        cases pr with
        | mk rest' q' =>
          cases h
          have ih := updateFirst_ids hrec
          simp [ids] at ih ⊢
          exact ih

theorem find_first_append (i : Nat) (p : Post) (suf : List Post) (hp : p.id = i) :
    ∀ pre : List Post, (∀ q ∈ pre, q.id ≠ i) →
      (pre ++ p :: suf).find? (fun q => q.id == i) = some p
  | [], _ => by simp [hp]
  | q :: pre, h => by
    have hq : q.id ≠ i := h q (List.mem_cons_self _ _)
    have ih := find_first_append i p suf hp pre
      (fun r hr => h r (List.mem_cons_of_mem _ hr))
    simp [hq, ih]

theorem erase_append_first (p : Post) (pre suf : List Post) (hp : p ∉ pre) :
    (pre ++ p :: suf).erase p = pre ++ suf := by
  rw [List.erase_append_right _ hp, List.erase_cons_head]

theorem search_posts_eq (tq cq : Option String) (posts : List Post) :
    search_posts tq cq posts =
      (posts, ⟨200, Body.posts (posts.filter
        (searchPred (lowerStr (tq.getD "")) (lowerStr (cq.getD ""))))⟩) := rfl

theorem searchPred_empty (p : Post) : searchPred "" "" p = true := rfl

theorem get_posts_fst_perm (sb d : Option String) (posts : List Post) :
    (get_posts sb d posts).1.Perm posts := by
  dsimp only [get_posts]
  split
  · exact List.Perm.refl _
  · split
    · exact List.Perm.refl _
    · split
      · exact pySort_perm _ _ _
      · exact List.Perm.refl _

unseal List.merge List.mergeSort in
theorem seed_sort_scenario :
    get_posts (some "title") (some "desc") seedPosts =
      ([⟨3, "Third post", "This is the third post."⟩,
        ⟨2, "Second post", "This is the second post."⟩,
        ⟨1, "First post", "This is the first post."⟩],
       ⟨200, Body.posts
         [⟨3, "Third post", "This is the third post."⟩,
          ⟨2, "Second post", "This is the second post."⟩,
          ⟨1, "First post", "This is the first post."⟩]⟩) := by
  decide

/-! The claims. -/

/-- C1: for every collection state, creating a post whose body has
non-falsy title and content assigns the new post
id = (maximum id among current posts) + 1, or 1 if the collection is
empty, appends the new post at the end of the sequence, and returns
HTTP 201 with the created post including its assigned id; the post is
subsequently present in the collection returned by list and search. -/
theorem C1_create_post (posts : List Post) (t c : String)
    (ht : t ≠ "") (hc : c ≠ "") :
    create_post (some t) (some c) posts =
      (posts ++ [⟨nextId posts, t, c⟩], ⟨201, Body.post ⟨nextId posts, t, c⟩⟩) ∧
    (posts = [] → nextId posts = 1) ∧
    (∀ p ∈ posts, p.id < nextId posts) ∧
    (posts ≠ [] → ∃ q ∈ posts, nextId posts = q.id + 1) ∧
    (get_posts none none (posts ++ [⟨nextId posts, t, c⟩])).2 =
      ⟨200, Body.posts (posts ++ [⟨nextId posts, t, c⟩])⟩ ∧
    (search_posts none none (posts ++ [⟨nextId posts, t, c⟩])).2 =
      ⟨200, Body.posts (posts ++ [⟨nextId posts, t, c⟩])⟩ ∧
    (⟨nextId posts, t, c⟩ : Post) ∈ posts ++ [⟨nextId posts, t, c⟩] := by
  refine ⟨create_post_valid_eq t c ht hc posts, ?_, ?_, ?_, ?_, ?_, ?_⟩
  · intro h
    subst h
    rfl
  · intro p hp
    exact lt_nextId hp
  · exact nextId_eq_succ_mem
  · rw [get_posts_no_sort none _ (Or.inl rfl)]
  · rw [search_posts_eq]
    have hfil : (posts ++ [(⟨nextId posts, t, c⟩ : Post)]).filter
        (searchPred (lowerStr "") (lowerStr "")) =
        posts ++ [(⟨nextId posts, t, c⟩ : Post)] :=
      List.filter_eq_self.mpr (fun a _ => searchPred_empty a)
    simp only [Option.getD_none]
    rw [hfil]
  · exact List.mem_append_right _ (List.mem_singleton.mpr rfl)

/-- Witness for C1: creating a post on the seed collection assigns id 4
and appends it. -/
theorem C1_create_post_witness :
    create_post (some "X") (some "Y") seedPosts =
      (seedPosts ++ [⟨4, "X", "Y"⟩], ⟨201, Body.post ⟨4, "X", "Y"⟩⟩) :=
  (C1_create_post seedPosts "X" "Y" (by decide) (by decide)).1

/-- C2: id uniqueness is an invariant: starting from a state with
pairwise-distinct ids, every operation (list with or without sort,
create, update, delete, search) leaves a state with pairwise-distinct
ids. -/
theorem C2_id_uniqueness (posts : List Post) (h : (ids posts).Nodup) :
    (∀ sb d : Option String, (ids (get_posts sb d posts).1).Nodup) ∧
    (∀ t c : Option String, (ids (create_post t c posts).1).Nodup) ∧
    (∀ (i : Nat) (t c : Option String), (ids (update_post i t c posts).1).Nodup) ∧
    (∀ i : Nat, (ids (delete_post i posts).1).Nodup) ∧
    (∀ tq cq : Option String, (ids (search_posts tq cq posts).1).Nodup) := by
  refine ⟨?_, ?_, ?_, ?_, ?_⟩
  · intro sb d
    have hperm : (get_posts sb d posts).1.Perm posts := get_posts_fst_perm sb d posts
    exact List.Perm.nodup (List.Perm.map Post.id hperm.symm) h
  · intro t c
    dsimp only [create_post]
    split
    · exact h
    · show (ids (posts ++ [⟨nextId posts, t.getD "", c.getD ""⟩])).Nodup
      have hids : ids (posts ++ [⟨nextId posts, t.getD "", c.getD ""⟩]) =
          ids posts ++ [nextId posts] := by
        simp [ids]
      rw [hids]
      refine List.Nodup.append h (List.nodup_singleton _) ?_
      intro a ha hb
      rcases List.mem_map.mp ha with ⟨p, hp, hpa⟩
      rcases List.mem_singleton.mp hb with rfl
      exact absurd hpa (ne_of_lt (lt_nextId hp))
  · intro i t c
    dsimp only [update_post]
    cases hu : updateFirst i t c posts with
    | none => exact h
    | some pr =>
      cases pr with
      | mk l' q =>
        show (ids l').Nodup
        rw [updateFirst_ids hu]
        exact h
  · intro i
    dsimp only [delete_post]
    cases hf : posts.find? (fun p => p.id == i) with
    | none => exact h
    | some p =>
      show (ids (posts.erase p)).Nodup
      exact List.Nodup.sublist (List.Sublist.map Post.id (List.erase_sublist p posts)) h
  · intro tq cq
    exact h

/-- Witness for C2 at the seed state: creating a post preserves id
uniqueness. -/
theorem C2_id_uniqueness_witness :
    (ids (create_post (some "X") (some "Y") seedPosts).1).Nodup :=
  (C2_id_uniqueness seedPosts (by decide)).2.1 (some "X") (some "Y")

/-- C3: for every collection state and every valid sort/direction
combination (direction defaulting to asc and compared
case-insensitively), list sorts the shared sequence in place by the
chosen field under case-insensitive lexicographic comparison, reversed
when direction is desc, returns the sorted sequence with HTTP 200, and
the new order is the collection state for later requests; with the
three seed posts, sort=title and direction=desc returns the posts
ordered "Third post", "Second post", "First post"; when sort is
omitted the collection order is unchanged and returned as is. -/
theorem C3_list_sorting (posts : List Post) (f : String) (d : Option String)
    (hf : f = "title" ∨ f = "content")
    (hd : lowerStr (d.getD "asc") = "asc" ∨ lowerStr (d.getD "asc") = "desc") :
    get_posts (some f) d posts =
      (pySort f (lowerStr (d.getD "asc") = "desc") posts,
       ⟨200, Body.posts (pySort f (lowerStr (d.getD "asc") = "desc") posts)⟩) ∧
    (pySort f (lowerStr (d.getD "asc") = "desc") posts).Perm posts ∧
    (lowerStr (d.getD "asc") = "asc" →
      (get_posts (some f) d posts).1.Pairwise
        (fun a b => strLe (sortKey f a) (sortKey f b) = true)) ∧
    (lowerStr (d.getD "asc") = "desc" →
      (get_posts (some f) d posts).1.Pairwise
        (fun a b => strLe (sortKey f b) (sortKey f a) = true)) ∧
    (∀ d2 : Option String,
      lowerStr (d2.getD "asc") = "asc" ∨ lowerStr (d2.getD "asc") = "desc" →
      get_posts none d2 posts = (posts, ⟨200, Body.posts posts⟩)) ∧
    get_posts (some "title") (some "desc") seedPosts =
      ([⟨3, "Third post", "This is the third post."⟩,
        ⟨2, "Second post", "This is the second post."⟩,
        ⟨1, "First post", "This is the first post."⟩],
       ⟨200, Body.posts
         [⟨3, "Third post", "This is the third post."⟩,
          ⟨2, "Second post", "This is the second post."⟩,
          ⟨1, "First post", "This is the first post."⟩]⟩) := by
  refine ⟨get_posts_valid_sort f d posts hf hd, pySort_perm _ _ _, ?_, ?_,
    fun d2 hd2 => get_posts_no_sort d2 posts hd2, seed_sort_scenario⟩
  · intro hasc
    rw [get_posts_valid_sort f d posts hf hd, hasc]
    simpa using pySort_sorted_asc f posts
  · intro hdesc
    rw [get_posts_valid_sort f d posts hf hd, hdesc]
    simpa using pySort_sorted_desc f posts

/-- Witness for C3: the seed scenario, by applying the general theorem
at sort=title, direction=desc. -/
theorem C3_list_sorting_witness :
    get_posts (some "title") (some "desc") seedPosts =
      ([⟨3, "Third post", "This is the third post."⟩,
        ⟨2, "Second post", "This is the second post."⟩,
        ⟨1, "First post", "This is the first post."⟩],
       ⟨200, Body.posts
         [⟨3, "Third post", "This is the third post."⟩,
          ⟨2, "Second post", "This is the second post."⟩,
          ⟨1, "First post", "This is the first post."⟩]⟩) :=
  (C3_list_sorting seedPosts "title" (some "desc") (Or.inl rfl)
    (Or.inr rfl)).2.2.2.2.2

/-- C4: updating an id with no matching post returns 404 with the error
body and leaves the collection unchanged; updating an existing id
replaces title and content independently exactly when the key is
present in the body (a present-but-empty value overwrites, an absent
key retains the stored value), mutates the post in place, and returns
HTTP 200 with the updated post. -/
theorem C4_update_post (posts : List Post) (i : Nat) (t c : Option String) :
    ((∀ p ∈ posts, p.id ≠ i) →
      update_post i t c posts = (posts, ⟨404, Body.error "Post not found"⟩)) ∧
    (∀ (pre suf : List Post) (p : Post),
      posts = pre ++ p :: suf → (∀ q ∈ pre, q.id ≠ i) → p.id = i →
      update_post i t c posts =
        (pre ++ (⟨p.id, t.getD p.title, c.getD p.content⟩ : Post) :: suf,
         ⟨200, Body.post ⟨p.id, t.getD p.title, c.getD p.content⟩⟩)) := by
  constructor
  · intro h
    dsimp only [update_post]
    rw [updateFirst_eq_none i t c posts h]
  · intro pre suf p hsplit hpre hp
    subst hsplit
    dsimp only [update_post]
    rw [updateFirst_append i t c p suf hp pre hpre]

/-- Witness for C4: updating post 2 of the seed collection with only a
title replaces the title, keeps the content, and keeps the position. -/
theorem C4_update_post_witness :
    update_post 2 (some "New title") none seedPosts =
      ([⟨1, "First post", "This is the first post."⟩,
        ⟨2, "New title", "This is the second post."⟩,
        ⟨3, "Third post", "This is the third post."⟩],
       ⟨200, Body.post ⟨2, "New title", "This is the second post."⟩⟩) :=
  (C4_update_post seedPosts 2 (some "New title") none).2
    [⟨1, "First post", "This is the first post."⟩]
    [⟨3, "Third post", "This is the third post."⟩]
    ⟨2, "Second post", "This is the second post."⟩ rfl (by decide) rfl

/-- Conversion between the boolean search predicate and its two-clause
description. -/
theorem searchPred_eq_true_iff (tq cq : String) (p : Post) :
    searchPred tq cq p = true ↔
      (tq = "" ∨ strContains (lowerStr p.title) tq = true) ∧
      (cq = "" ∨ strContains (lowerStr p.content) cq = true) := by
  by_cases h1 : tq = "" <;> by_cases h2 : cq = "" <;>
    simp [searchPred, h1, h2]

/-- C5: search returns exactly the posts whose title matches the title
query (empty query matches everything) and whose content matches the
content query, case-insensitively, as a subsequence of the current
collection order, with HTTP 200, without mutating the collection; with
both queries empty it returns all posts. -/
theorem C5_search_posts (posts : List Post) (tq cq : Option String) :
    ∃ l : List Post,
      search_posts tq cq posts = (posts, ⟨200, Body.posts l⟩) ∧
      l = posts.filter
        (searchPred (lowerStr (tq.getD "")) (lowerStr (cq.getD ""))) ∧
      List.Sublist l posts ∧
      (∀ p, p ∈ l ↔ p ∈ posts ∧
        (lowerStr (tq.getD "") = "" ∨
          strContains (lowerStr p.title) (lowerStr (tq.getD "")) = true) ∧
        (lowerStr (cq.getD "") = "" ∨
          strContains (lowerStr p.content) (lowerStr (cq.getD "")) = true)) ∧
      (lowerStr (tq.getD "") = "" → lowerStr (cq.getD "") = "" → l = posts) := by
  refine ⟨posts.filter
      (searchPred (lowerStr (tq.getD "")) (lowerStr (cq.getD ""))),
    rfl, rfl, List.filter_sublist posts, ?_, ?_⟩
  · intro p
    rw [List.mem_filter, searchPred_eq_true_iff]
  · intro h1 h2
    rw [h1, h2]
    exact List.filter_eq_self.mpr (fun a _ => searchPred_empty a)

/-- Witness for C5: searching the seed collection for title SECOND
returns exactly the second post. -/
theorem C5_search_posts_witness :
    (search_posts (some "SECOND") none seedPosts).2 =
      ⟨200, Body.posts [⟨2, "Second post", "This is the second post."⟩]⟩ := by
  obtain ⟨l, h1, h2, -, -, -⟩ := C5_search_posts seedPosts (some "SECOND") none
  rw [h1, h2]
  decide

/-- C6: delete removes exactly the first post whose id matches and
returns HTTP 200 with the success message when such a post exists,
leaving all other posts and their relative order unchanged; when no
post matches it returns HTTP 404 with the error body and leaves the
collection unchanged. -/
theorem C6_delete_post (posts : List Post) (i : Nat) (_hpos : 0 < i) :
    ((∀ p ∈ posts, p.id ≠ i) →
      delete_post i posts = (posts, ⟨404, Body.error "Post not found"⟩)) ∧
    (∀ (pre suf : List Post) (p : Post),
      posts = pre ++ p :: suf → (∀ q ∈ pre, q.id ≠ i) → p.id = i →
      delete_post i posts =
        (pre ++ suf,
         ⟨200, Body.message ("Post with id " ++ toString i ++
           " has been deleted successfully.")⟩)) := by
  constructor
  · intro h
    dsimp only [delete_post]
    rw [List.find?_eq_none.mpr (fun x hx => by simpa using h x hx)]
  · intro pre suf p hsplit hpre hp
    subst hsplit
    dsimp only [delete_post]
    rw [find_first_append i p suf hp pre hpre]
    have hnotmem : p ∉ pre := fun hmem => (hpre p hmem) hp
    dsimp only
    rw [erase_append_first p pre suf hnotmem]

/-- Witness for C6: deleting post 2 from the seed collection removes
exactly that post and returns the success message. -/
theorem C6_delete_post_witness :
    0 < 2 ∧ delete_post 2 seedPosts =
      ([⟨1, "First post", "This is the first post."⟩,
        ⟨3, "Third post", "This is the third post."⟩],
       ⟨200, Body.message "Post with id 2 has been deleted successfully."⟩) :=
  ⟨by decide, (C6_delete_post seedPosts 2 (by decide)).2
    [⟨1, "First post", "This is the first post."⟩]
    [⟨3, "Third post", "This is the third post."⟩]
    ⟨2, "Second post", "This is the second post."⟩ rfl (by decide) rfl⟩

/-- C7: a create request lacking title or content, or with a falsy
(empty-string) value for either, returns HTTP 400 with the error body
and leaves the collection unchanged. -/
theorem C7_create_post_invalid (posts : List Post) (t c : Option String)
    (h : t = none ∨ t = some "" ∨ c = none ∨ c = some "") :
    create_post t c posts =
      (posts, ⟨400, Body.error "Both 'title' and 'content' are required"⟩) := by
  have hnone : truthy none = false := rfl
  have hempty : truthy (some "") = false := rfl
  rcases h with rfl | rfl | rfl | rfl <;>
    simp [create_post, hnone, hempty]

/-- Witness for C7: creating a post with an empty content on the seed
collection returns 400 and leaves the collection unchanged. -/
theorem C7_create_post_invalid_witness :
    create_post (some "X") (some "") seedPosts =
      (seedPosts, ⟨400, Body.error "Both 'title' and 'content' are required"⟩) :=
  C7_create_post_invalid seedPosts (some "X") (some "")
    (Or.inr (Or.inr (Or.inr rfl)))

/-- Counterexample to C8 as stated: the sort parameter present with the
empty-string value is outside the allowed set, yet the request returns
HTTP 200 with the unchanged collection and not the 400 sort error,
because the handler tests the parameter's truthiness before testing
membership in the allowed set. -/
theorem C8_counterexample :
    ("" : String) ≠ "title" ∧ ("" : String) ≠ "content" ∧
    get_posts (some "") none seedPosts =
      (seedPosts, ⟨200, Body.posts seedPosts⟩) ∧
    ¬ get_posts (some "") none seedPosts =
        (seedPosts,
         ⟨400, Body.error "Invalid sort field. Must be 'title' or 'content'."⟩) := by
  refine ⟨by decide, by decide, by decide, by decide⟩

/-- C8 (amended): a list request whose sort parameter is present with a
non-empty value outside the allowed set returns HTTP 400 with the sort
error body and does not reorder the collection. -/
theorem C8_invalid_sort (posts : List Post) (s : String) (d : Option String)
    (hne : s ≠ "") (h1 : s ≠ "title") (h2 : s ≠ "content") :
    get_posts (some s) d posts =
      (posts,
       ⟨400, Body.error "Invalid sort field. Must be 'title' or 'content'."⟩) := by
  simp [get_posts, hne, h1, h2]

/-- Witness for the amended C8 at a concrete invalid sort field. -/
theorem C8_invalid_sort_witness :
    get_posts (some "author") none seedPosts =
      (seedPosts,
       ⟨400, Body.error "Invalid sort field. Must be 'title' or 'content'."⟩) :=
  C8_invalid_sort seedPosts "author" none (by decide) (by decide) (by decide)

/-- C9: the direction parameter is validated unconditionally: whenever
the sort parameter passes its own preceding check (absent, empty, or a
valid field — in particular when no sort parameter is given at all), a
list request whose lowercased direction value is outside the allowed
set returns HTTP 400 with the direction error body and leaves the
collection unchanged. -/
theorem C9_invalid_direction (posts : List Post) (sb : Option String)
    (s : String)
    (hsb : sb = none ∨ sb = some "" ∨ sb = some "title" ∨ sb = some "content")
    (h1 : lowerStr s ≠ "asc") (h2 : lowerStr s ≠ "desc") :
    get_posts sb (some s) posts =
      (posts, ⟨400, Body.error "Invalid direction. Must be 'asc' or 'desc'."⟩) := by
  rcases hsb with rfl | rfl | rfl | rfl <;> simp [get_posts, h1, h2]

/-- Witness for C9: an invalid direction with no sort parameter at all
returns the direction error. -/
theorem C9_invalid_direction_witness :
    get_posts none (some "down") seedPosts =
      (seedPosts, ⟨400, Body.error "Invalid direction. Must be 'asc' or 'desc'."⟩) :=
  C9_invalid_direction seedPosts none "down" (Or.inl rfl) (by decide) (by decide)

/-- C10: the in-place sort performed by list is stable: for every valid
sort/direction pair, two posts whose lowercased sort-field values are
equal and that appear in a given relative order in the collection
appear in the same relative order in the sorted state. -/
theorem C10_sort_stable (posts : List Post) (f : String) (d : Option String)
    (hf : f = "title" ∨ f = "content")
    (hd : lowerStr (d.getD "asc") = "asc" ∨ lowerStr (d.getD "asc") = "desc")
    (a b : Post) (hkey : sortKey f a = sortKey f b)
    (hab : List.Sublist [a, b] posts) :
    List.Sublist [a, b] (get_posts (some f) d posts).1 := by
  rw [get_posts_valid_sort f d posts hf hd]
  show List.Sublist [a, b] (pySort f (lowerStr (d.getD "asc") = "desc") posts)
  rcases Bool.eq_false_or_eq_true
    (decide (lowerStr (d.getD "asc") = "desc")) with hX | hX
  · rw [hX]
    simp only [pySort, if_true]
    exact List.pair_sublist_mergeSort
      (fun x y z hxy hyz => strLe_trans hyz hxy)
      (fun x y => strLe_total _ _)
      (by rw [hkey]; exact strLe_refl _) hab
  · rw [hX]
    simp only [pySort, Bool.false_eq_true, if_false]
    exact List.pair_sublist_mergeSort
      (fun x y z hxy hyz => strLe_trans hxy hyz)
      (fun x y => strLe_total _ _)
      (by rw [hkey]; exact strLe_refl _) hab

/-- Witness for C10: two posts with titles differing only in case keep
their relative order when sorting by title. -/
theorem C10_sort_stable_witness :
    List.Sublist
      [(⟨1, "Alpha", "x"⟩ : Post), ⟨2, "alpha", "y"⟩]
      (get_posts (some "title") none
        [(⟨1, "Alpha", "x"⟩ : Post), ⟨2, "alpha", "y"⟩]).1 :=
  C10_sort_stable [⟨1, "Alpha", "x"⟩, ⟨2, "alpha", "y"⟩] "title" none
    (Or.inl rfl) (Or.inl rfl) ⟨1, "Alpha", "x"⟩ ⟨2, "alpha", "y"⟩
    (by decide) (List.Sublist.refl _)

end Masterblog
